import Mathlib

/-!
Shallow embedding of `src/library/align.rs` from the typst repository:
the `align` directive evaluator and its alignment resolver `dedup_aligns`.
The supporting data types (axes, alignments, the writing-system mapping) live
outside the provided sources, so they are modelled from the specification's
data model; the two functions themselves are translated directly from the
Rust source, with the `&mut LayoutContext` turned into explicit state passing
(the context is returned alongside the result and diagnostics are appended to
its feedback list).
-/

namespace Typst

/-- Modelled from the spec: the two layout axes as the user names them
(`SpecAxis` in the layout prelude, which is not among the given sources). -/
inductive SpecAxis
  | Horizontal
  | Vertical
deriving DecidableEq

/-- Modelled from the spec: the two layout axes named relative to the writing
system (`GenAxis` in the layout prelude; primary = axis text flows along). -/
inductive GenAxis
  | Primary
  | Secondary
deriving DecidableEq

/-- Modelled from the spec: the user-facing alignment tokens
(`SpecAlign` in the layout prelude). -/
inductive SpecAlign
  | Left
  | Right
  | Top
  | Bottom
  | Center
deriving DecidableEq

/-- Modelled from the spec: alignment relative to a generic axis
(`GenAlign` in the layout prelude). -/
inductive GenAlign
  | Start
  | Center
  | End
deriving DecidableEq

/-- Modelled from the spec: a pair of generic-axis-indexed values
(`Gen2` in the layout prelude). -/
structure Gen2 (α : Type) where
  primary : α
  secondary : α
deriving DecidableEq

/-- Modelled from the spec: `Gen2::get`, selecting the component of a generic
axis. -/
def Gen2.get {α : Type} (g : Gen2 α) : GenAxis → α
  | GenAxis.Primary => g.primary
  | GenAxis.Secondary => g.secondary

/-- Modelled from the spec: the functional counterpart of `Gen2::get_mut`
followed by assignment — replace the component of one generic axis. -/
def Gen2.set {α : Type} (g : Gen2 α) : GenAxis → α → Gen2 α
  | GenAxis.Primary, x => { g with primary := x }
  | GenAxis.Secondary, x => { g with secondary := x }

/-- The generic axis other than the given one. -/
def GenAxis.other : GenAxis → GenAxis
  | GenAxis.Primary => GenAxis.Secondary
  | GenAxis.Secondary => GenAxis.Primary

/-- Modelled from the spec: the fully resolved two-axis alignment
(`LayoutAlign` in the layout prelude). -/
abbrev LayoutAlign := Gen2 GenAlign

/-- Modelled from the spec: `SpecAlign::axis` — each non-Center variant has an
implicit associated axis (Left/Right → Horizontal, Top/Bottom → Vertical);
Center has none. -/
def SpecAlign.axis : SpecAlign → Option SpecAxis
  | SpecAlign.Left => some SpecAxis.Horizontal
  | SpecAlign.Right => some SpecAxis.Horizontal
  | SpecAlign.Top => some SpecAxis.Vertical
  | SpecAlign.Bottom => some SpecAxis.Vertical
  | SpecAlign.Center => none

/-- Modelled from the spec: the AxisMapping supplied by the writing-system
context — a pure, total mapping of axes and alignment values onto their
writing-system-relative counterparts (`SpecAxis::to_gen` and
`SpecAlign::to_gen` applied to `ctx.state.sys`). -/
structure LayoutSystem where
  axisToGen : SpecAxis → GenAxis
  alignToGen : SpecAlign → GenAlign

/-- Modelled from the spec: a source location attached to each request.
Its structure is irrelevant to the resolver; a number suffices. -/
abbrev Span := Nat

/-- Modelled from the spec: a value paired with its source span
(`Spanned` in the syntax module). -/
structure Spanned (α : Type) where
  v : α
  span : Span
deriving DecidableEq

/-- The three diagnostics `dedup_aligns` can raise, one constructor per
`error!` site in the source. -/
inductive Diag
  | invalidForAxis (span : Span) (align : SpecAlign) (axis : SpecAxis)
  | duplicateForAxis (span : Span) (axis : SpecAxis)
  | duplicate (span : Span)
deriving DecidableEq

/-- Modelled from the spec: the nested content tree is opaque to this core. -/
abbrev SynTree := Nat

/-- The two commands the align directive emits (`Command::SetAlignment` and
`Command::LayoutSyntaxTree`). -/
inductive Command
  | SetAlignment (aligns : LayoutAlign)
  | LayoutSyntaxTree (tree : SynTree)
deriving DecidableEq

/-- The `Value::Commands` result of the directive. -/
inductive Value
  | Commands (cmds : List Command)

/-- Modelled from the spec: the part of the ambient layout state the align
directive reads — the current alignment and the writing system. -/
structure LayoutState where
  align : LayoutAlign
  sys : LayoutSystem

/-- The layout context: ambient state plus the diagnostic feedback sink. -/
structure LayoutContext where
  state : LayoutState
  feedback : List Diag

/-- `ctx.diag(...)`: append a diagnostic to the feedback sink. -/
def LayoutContext.diag (ctx : LayoutContext) (d : Diag) : LayoutContext :=
  { ctx with feedback := ctx.feedback ++ [d] }

/-- The local state of `dedup_aligns`'s loop: the candidate alignment, the
per-axis confirmation flags `had`, and the pending bare-center flag. -/
structure DedupState where
  aligns : LayoutAlign
  had : Gen2 Bool
  hadCenter : Bool
deriving DecidableEq

/-- One iteration of the `for` loop in `dedup_aligns`: handle one request
(the `if let Some(axis)`/`else` distinction), then flush a pending bare
center onto the other axis once one axis is known. -/
def dedupStep (p : LayoutContext × DedupState)
    (req : Option SpecAxis × Spanned SpecAlign) : LayoutContext × DedupState :=
  let ctx := p.1
  let s := p.2
  let q : LayoutContext × DedupState :=
    match req with
    | (some axis, ⟨align, span⟩) =>
      let genAxis := ctx.state.sys.axisToGen axis
      let genAlign := ctx.state.sys.alignToGen align
      if (match SpecAlign.axis align with
          | some a => decide (a ≠ axis)
          | none => false) then
        (ctx.diag (Diag.invalidForAxis span align axis), s)
      else if s.had.get genAxis then
        (ctx.diag (Diag.duplicateForAxis span axis), s)
      else
        (ctx, { s with
          aligns := s.aligns.set genAxis genAlign,
          had := s.had.set genAxis true })
    | (none, ⟨_, span⟩) =>
      if s.had.primary && s.had.secondary then
        (ctx.diag (Diag.duplicate span), s)
      else if s.hadCenter then
        (ctx, { s with
          aligns := ⟨GenAlign.Center, GenAlign.Center⟩,
          had := ⟨true, true⟩ })
      else
        (ctx, { s with hadCenter := true })
  let s1 := q.2
  if s1.hadCenter && (s1.had.primary || s1.had.secondary) then
    (q.1,
      if s1.had.primary then
        { s1 with
          aligns := { s1.aligns with secondary := GenAlign.Center },
          had := { s1.had with secondary := true },
          hadCenter := false }
      else
        { s1 with
          aligns := { s1.aligns with primary := GenAlign.Center },
          had := { s1.had with primary := true },
          hadCenter := false })
  else q

/-- The initial loop state of `dedup_aligns`: the candidate seeded from the
previous alignment, nothing confirmed, no pending center. -/
def initDedup (prev : LayoutAlign) : DedupState :=
  ⟨prev, ⟨false, false⟩, false⟩

/-- The whole `for` loop of `dedup_aligns` as a fold. -/
def dedupLoop (p : LayoutContext × DedupState)
    (reqs : List (Option SpecAxis × Spanned SpecAlign)) :
    LayoutContext × DedupState :=
  reqs.foldl dedupStep p

/-- `dedup_aligns`: resolve the request sequence against the context's
current alignment; a still-pending bare center defaults to the primary axis.
Returns the resolved alignment and the threaded context. -/
def dedup_aligns (ctx : LayoutContext)
    (reqs : List (Option SpecAxis × Spanned SpecAlign)) :
    LayoutAlign × LayoutContext :=
  let p := dedupLoop (ctx, initDedup ctx.state.align) reqs
  (if p.2.hadCenter then { p.2.aligns with primary := GenAlign.Center }
   else p.2.aligns,
   p.1)

/-- The already-bound arguments of the align directive: the optional body
tree, up to two positional alignment values, and the `horizontal` /
`vertical` keyword values (the argument binder is an external collaborator). -/
structure Args where
  body : Option SynTree
  first : Option (Spanned SpecAlign)
  second : Option (Spanned SpecAlign)
  horizontal : Option (Spanned SpecAlign)
  vertical : Option (Spanned SpecAlign)

/-- The request sequence `align` builds: positional values carry their own
intrinsic axis (none for a bare center), keyword values carry their axis. -/
def alignIter (args : Args) : List (Option SpecAxis × Spanned SpecAlign) :=
  ((args.first.toList ++ args.second.toList).map fun a => (SpecAlign.axis a.v, a))
    ++ (args.horizontal.toList.map fun a => (some SpecAxis.Horizontal, a))
    ++ (args.vertical.toList.map fun a => (some SpecAxis.Vertical, a))

/-- The `align` directive evaluator: resolve the requests, then emit either
`[set(new), layout(tree), set(old)]` (body present) or `[set(new)]`. -/
def align (args : Args) (ctx : LayoutContext) : Value × LayoutContext :=
  let r := dedup_aligns ctx (alignIter args)
  (Value.Commands (match args.body with
    | some tree =>
      [Command.SetAlignment r.1, Command.LayoutSyntaxTree tree,
       Command.SetAlignment r.2.state.align]
    | none => [Command.SetAlignment r.1]),
   r.2)

/-- Whether a diagnostic is the bare `duplicate alignment` one raised by the
over-specified branch of `dedup_aligns`. -/
def Diag.isDup : Diag → Bool
  | Diag.duplicate _ => true
  | _ => false

/-- A feedback list free of bare `duplicate alignment` diagnostics. -/
def noDup (f : List Diag) : Bool :=
  f.all fun d => !d.isDup

/-- Modelled from the spec: an example writing system (text flowing
left-to-right, lines stacking top-to-bottom), used to instantiate theorems
at concrete inputs. -/
def ltrSys : LayoutSystem where
  axisToGen
    | SpecAxis.Horizontal => GenAxis.Primary
    | SpecAxis.Vertical => GenAxis.Secondary
  alignToGen
    | SpecAlign.Left => GenAlign.Start
    | SpecAlign.Right => GenAlign.End
    | SpecAlign.Top => GenAlign.Start
    | SpecAlign.Bottom => GenAlign.End
    | SpecAlign.Center => GenAlign.Center

/-! ### Helper lemmas -/

/-- One resolver step never touches the ambient layout state: the context is
either passed through or extended by a diagnostic. -/
theorem dedupStep_state (p : LayoutContext × DedupState)
    (r : Option SpecAxis × Spanned SpecAlign) :
    (dedupStep p r).1.state = p.1.state := by
  rcases p with ⟨ctx, s⟩
  rcases r with ⟨axis?, v, sp⟩
  cases axis? <;>
    simp only [dedupStep, LayoutContext.diag] <;>
    split_ifs <;> rfl

/-- The whole resolver loop never touches the ambient layout state. -/
theorem dedupLoop_state (reqs : List (Option SpecAxis × Spanned SpecAlign))
    (p : LayoutContext × DedupState) :
    (dedupLoop p reqs).1.state = p.1.state := by
  induction reqs generalizing p with
  | nil => rfl
  | cons r rest ih =>
    calc (dedupLoop (dedupStep p r) rest).1.state
        = (dedupStep p r).1.state := ih _
      _ = p.1.state := dedupStep_state p r

/-- One resolver step only appends to the feedback sink. -/
theorem dedupStep_feedback (p : LayoutContext × DedupState)
    (r : Option SpecAxis × Spanned SpecAlign) :
    ∃ ds, (dedupStep p r).1.feedback = p.1.feedback ++ ds := by
  rcases p with ⟨ctx, s⟩
  rcases r with ⟨axis?, v, sp⟩
  cases axis? <;>
    simp only [dedupStep, LayoutContext.diag] <;>
    split_ifs
  case _ => exact ⟨_, rfl⟩
  all_goals first
    | exact ⟨_, rfl⟩
    | exact ⟨[], (List.append_nil _).symm⟩

/-- The whole resolver loop only appends to the feedback sink. -/
theorem dedupLoop_feedback (reqs : List (Option SpecAxis × Spanned SpecAlign))
    (p : LayoutContext × DedupState) :
    ∃ ds, (dedupLoop p reqs).1.feedback = p.1.feedback ++ ds := by
  induction reqs generalizing p with
  | nil => exact ⟨[], (List.append_nil _).symm⟩
  | cons r rest ih =>
    obtain ⟨ds₁, h₁⟩ := dedupStep_feedback p r
    obtain ⟨ds₂, h₂⟩ := ih (dedupStep p r)
    exact ⟨ds₁ ++ ds₂, by
      simp only [dedupLoop] at h₂ ⊢
      rw [List.foldl_cons, h₂, h₁, List.append_assoc]⟩

/-- The resolver-state component of one step does not depend on the feedback
already accumulated in the context. -/
theorem dedupStep_pure (st : LayoutState) (f f' : List Diag) (s : DedupState)
    (r : Option SpecAxis × Spanned SpecAlign) :
    (dedupStep (⟨st, f⟩, s) r).2 = (dedupStep (⟨st, f'⟩, s) r).2 := by
  rcases r with ⟨axis?, v, sp⟩
  cases axis? <;>
    simp only [dedupStep, LayoutContext.diag] <;>
    split_ifs <;> rfl

/-- The resolver-state component of the whole loop does not depend on the
feedback already accumulated in the context. -/
theorem dedupLoop_pure (reqs : List (Option SpecAxis × Spanned SpecAlign))
    (st : LayoutState) (f f' : List Diag) (s : DedupState) :
    (dedupLoop (⟨st, f⟩, s) reqs).2 = (dedupLoop (⟨st, f'⟩, s) reqs).2 := by
  induction reqs generalizing f f' s with
  | nil => rfl
  | cons r rest ih =>
    simp only [dedupLoop, List.foldl_cons]
    have h1 : dedupStep (⟨st, f⟩, s) r
        = (⟨st, (dedupStep (⟨st, f⟩, s) r).1.feedback⟩,
           (dedupStep (⟨st, f⟩, s) r).2) := by
      have hs := dedupStep_state (⟨st, f⟩, s) r
      rcases h : dedupStep (⟨st, f⟩, s) r with ⟨⟨st₁, f₁⟩, s₁⟩
      rw [h] at hs
      simp at hs
      simp [hs]
    have h2 : dedupStep (⟨st, f'⟩, s) r
        = (⟨st, (dedupStep (⟨st, f'⟩, s) r).1.feedback⟩,
           (dedupStep (⟨st, f'⟩, s) r).2) := by
      have hs := dedupStep_state (⟨st, f'⟩, s) r
      rcases h : dedupStep (⟨st, f'⟩, s) r with ⟨⟨st₁, f₁⟩, s₁⟩
      rw [h] at hs
      simp at hs
      simp [hs]
    rw [h1, h2, dedupStep_pure st f f' s r]
    exact ih _ _ _

/-- A step on a request that either carries an axis or arrives while not both
axes are confirmed never raises the bare `duplicate alignment` diagnostic. -/
theorem dedupStep_noDup (p : LayoutContext × DedupState)
    (r : Option SpecAxis × Spanned SpecAlign)
    (hf : noDup p.1.feedback = true)
    (hr : r.1 = none → ¬(p.2.had.primary = true ∧ p.2.had.secondary = true)) :
    noDup (dedupStep p r).1.feedback = true := by
  rcases p with ⟨ctx, s⟩
  rcases r with ⟨axis?, v, sp⟩
  cases axis? <;>
    simp only [dedupStep, LayoutContext.diag] <;>
    split_ifs <;>
    simp_all [noDup, List.all_append, Diag.isDup]

/-- A loop over requests that all carry an axis never raises the bare
`duplicate alignment` diagnostic. -/
theorem dedupLoop_noDup (reqs : List (Option SpecAxis × Spanned SpecAlign))
    (p : LayoutContext × DedupState)
    (hreqs : ∀ r ∈ reqs, r.1 ≠ none)
    (hf : noDup p.1.feedback = true) :
    noDup (dedupLoop p reqs).1.feedback = true := by
  induction reqs generalizing p with
  | nil => exact hf
  | cons r rest ih =>
    refine ih (dedupStep p r) (fun x hx => hreqs x (List.mem_cons_of_mem r hx))
      (dedupStep_noDup p r hf fun hnone => ?_)
    exact absurd hnone (hreqs r (List.mem_cons_self r rest))

/-- After one step from the initial resolver state, at most one generic axis
is confirmed. -/
theorem dedupStep_notBoth (ctx : LayoutContext) (s : DedupState)
    (r : Option SpecAxis × Spanned SpecAlign)
    (h1 : s.had.primary = false) (h2 : s.had.secondary = false)
    (h3 : s.hadCenter = false) :
    ¬((dedupStep (ctx, s) r).2.had.primary = true ∧
      (dedupStep (ctx, s) r).2.had.secondary = true) := by
  rcases r with ⟨axis?, v, sp⟩
  cases axis? with
  | none =>
    simp only [dedupStep]
    split_ifs <;> simp_all
  | some axis =>
    cases hax : ctx.state.sys.axisToGen axis <;>
      simp only [dedupStep, hax] <;>
      split_ifs <;>
      simp_all [Gen2.set, Gen2.get]

/-- The resolver loop splits over list concatenation. -/
theorem dedupLoop_append (p : LayoutContext × DedupState)
    (xs ys : List (Option SpecAxis × Spanned SpecAlign)) :
    dedupLoop p (xs ++ ys) = dedupLoop (dedupLoop p xs) ys :=
  List.foldl_append dedupStep p xs ys

/-- `dedup_aligns` never touches the ambient layout state. -/
theorem dedup_aligns_state (ctx : LayoutContext)
    (reqs : List (Option SpecAxis × Spanned SpecAlign)) :
    (dedup_aligns ctx reqs).2.state = ctx.state :=
  dedupLoop_state reqs (ctx, initDedup ctx.state.align)

/-- Once both axes are confirmed and no center is pending, a step changes
nothing in the resolver state. -/
theorem dedupStep_saturated (ctx : LayoutContext) (al : LayoutAlign)
    (r : Option SpecAxis × Spanned SpecAlign) :
    (dedupStep (ctx, ⟨al, ⟨true, true⟩, false⟩) r).2
      = ⟨al, ⟨true, true⟩, false⟩ := by
  rcases r with ⟨axis?, v, sp⟩
  cases axis? with
  | none =>
    simp only [dedupStep]
    split_ifs <;> simp_all
  | some axis =>
    cases hax : ctx.state.sys.axisToGen axis <;>
      simp only [dedupStep, hax] <;>
      split_ifs <;> simp_all [Gen2.get]

/-- Once both axes are confirmed and no center is pending, the rest of the
loop changes nothing in the resolver state. -/
theorem dedupLoop_saturated (reqs : List (Option SpecAxis × Spanned SpecAlign))
    (ctx : LayoutContext) (al : LayoutAlign) :
    (dedupLoop (ctx, ⟨al, ⟨true, true⟩, false⟩) reqs).2
      = ⟨al, ⟨true, true⟩, false⟩ := by
  induction reqs generalizing ctx with
  | nil => rfl
  | cons r rest ih =>
    have h : dedupStep (ctx, ⟨al, ⟨true, true⟩, false⟩) r
        = ((dedupStep (ctx, ⟨al, ⟨true, true⟩, false⟩) r).1,
           ⟨al, ⟨true, true⟩, false⟩) :=
      Prod.ext rfl (dedupStep_saturated ctx al r)
    simp only [dedupLoop, List.foldl_cons] at ih ⊢
    rw [h]
    exact ih _

/-- A pending bare center implies that no axis is confirmed: this holds after
every step, for any request. -/
theorem dedupStep_inv (p : LayoutContext × DedupState)
    (r : Option SpecAxis × Spanned SpecAlign)
    (h : p.2.hadCenter = true →
      p.2.had.primary = false ∧ p.2.had.secondary = false) :
    (dedupStep p r).2.hadCenter = true →
      (dedupStep p r).2.had.primary = false ∧
      (dedupStep p r).2.had.secondary = false := by
  rcases p with ⟨ctx, s⟩
  rcases r with ⟨axis?, v, sp⟩
  cases axis? with
  | none =>
    simp only [dedupStep]
    split_ifs <;> intro hc <;> simp_all
  | some axis =>
    cases hax : ctx.state.sys.axisToGen axis <;>
      simp only [dedupStep, hax] <;>
      split_ifs <;> intro hc <;> simp_all [Gen2.get, Gen2.set]

/-- A pending bare center implies that no axis is confirmed, at every point
of the resolver loop started from the initial state. -/
theorem dedupLoop_inv (reqs : List (Option SpecAxis × Spanned SpecAlign))
    (p : LayoutContext × DedupState)
    (h : p.2.hadCenter = true →
      p.2.had.primary = false ∧ p.2.had.secondary = false) :
    (dedupLoop p reqs).2.hadCenter = true →
      (dedupLoop p reqs).2.had.primary = false ∧
      (dedupLoop p reqs).2.had.secondary = false := by
  induction reqs generalizing p with
  | nil => exact h
  | cons r rest ih => exact ih (dedupStep p r) (dedupStep_inv p r h)

/-- Every write to the secondary alignment also confirms the secondary axis,
so while the secondary axis is unconfirmed its alignment keeps its seed
value: one step preserves this. -/
theorem dedupStep_secondary (p : LayoutContext × DedupState)
    (r : Option SpecAxis × Spanned SpecAlign) (al : GenAlign)
    (h : p.2.had.secondary = false → p.2.aligns.secondary = al) :
    (dedupStep p r).2.had.secondary = false →
      (dedupStep p r).2.aligns.secondary = al := by
  rcases p with ⟨ctx, s⟩
  rcases r with ⟨axis?, v, sp⟩
  cases axis? with
  | none =>
    simp only [dedupStep]
    split_ifs <;> intro hsec <;> simp_all
  | some axis =>
    cases hax : ctx.state.sys.axisToGen axis <;>
      simp only [dedupStep, hax] <;>
      split_ifs <;> intro hsec <;> simp_all [Gen2.get, Gen2.set]

/-- Every write to the secondary alignment also confirms the secondary axis,
so while the secondary axis is unconfirmed its alignment keeps its seed
value: this holds over the whole loop. -/
theorem dedupLoop_secondary (reqs : List (Option SpecAxis × Spanned SpecAlign))
    (p : LayoutContext × DedupState) (al : GenAlign)
    (h : p.2.had.secondary = false → p.2.aligns.secondary = al) :
    (dedupLoop p reqs).2.had.secondary = false →
      (dedupLoop p reqs).2.aligns.secondary = al := by
  induction reqs generalizing p with
  | nil => exact h
  | cons r rest ih => exact ih (dedupStep p r) (dedupStep_secondary p r al h)

/-! ### Claim theorems -/

/-- C7: with no arguments, the resolver returns the previous alignment
unchanged; `align` without a body emits exactly one set-alignment command
carrying that value, and with a body emits set(old), layout(tree), set(old),
a no-op on ambient alignment overall. -/
theorem align_round_trip (ctx : LayoutContext) :
    dedup_aligns ctx [] = (ctx.state.align, ctx) ∧
    align ⟨none, none, none, none, none⟩ ctx
      = (Value.Commands [Command.SetAlignment ctx.state.align], ctx) ∧
    (∀ t : SynTree,
      align ⟨some t, none, none, none, none⟩ ctx
        = (Value.Commands [Command.SetAlignment ctx.state.align,
            Command.LayoutSyntaxTree t,
            Command.SetAlignment ctx.state.align], ctx)) :=
  ⟨rfl, rfl, fun _ => rfl⟩

/-- C2: the command list returned by `align` is exactly set(new), layout(tree),
set(pre-call value) when a body tree was supplied, and exactly set(new)
otherwise. -/
theorem align_command_list (args : Args) (ctx : LayoutContext) :
    (align args ctx).1 = Value.Commands (match args.body with
      | some t =>
        [Command.SetAlignment (dedup_aligns ctx (alignIter args)).1,
         Command.LayoutSyntaxTree t,
         Command.SetAlignment ctx.state.align]
      | none =>
        [Command.SetAlignment (dedup_aligns ctx (alignIter args)).1]) := by
  cases hb : args.body <;>
    simp [align, hb, dedup_aligns_state ctx (alignIter args)]

/-- C8: `align` leaves the ambient layout state unchanged and only appends to
the feedback sink, and the resolver's result is a pure function of the old
state and the requests (independent of the feedback already accumulated). -/
theorem align_frame_effects (args : Args) (ctx : LayoutContext) :
    (align args ctx).2.state = ctx.state ∧
    (∃ ds, (align args ctx).2.feedback = ctx.feedback ++ ds) ∧
    (∀ (st : LayoutState) (f f' : List Diag)
        (reqs : List (Option SpecAxis × Spanned SpecAlign)),
      (dedup_aligns ⟨st, f⟩ reqs).1 = (dedup_aligns ⟨st, f'⟩ reqs).1) := by
  refine ⟨dedup_aligns_state ctx (alignIter args), ?_, ?_⟩
  · exact dedupLoop_feedback (alignIter args) (ctx, initDedup ctx.state.align)
  · intro st f f' reqs
    simp only [dedup_aligns]
    rw [dedupLoop_pure reqs st f f' (initDedup st.align)]

/-- C6: a single bare center request sets the primary axis to Center and
leaves the secondary axis at its previous value; more generally, a bare
center still pending after the loop is resolved onto the primary axis during
finalization, leaving the secondary axis as the loop left it. -/
theorem dedup_single_center (ctx : LayoutContext) (sp : Span) :
    (dedup_aligns ctx [(none, ⟨SpecAlign.Center, sp⟩)]).1
      = ⟨GenAlign.Center, ctx.state.align.secondary⟩ ∧
    (∀ reqs : List (Option SpecAxis × Spanned SpecAlign),
      (dedupLoop (ctx, initDedup ctx.state.align) reqs).2.hadCenter = true →
        (dedup_aligns ctx reqs).1.primary = GenAlign.Center ∧
        (dedup_aligns ctx reqs).1.secondary = ctx.state.align.secondary) := by
  refine ⟨rfl, fun reqs h => ?_⟩
  have hinv := dedupLoop_inv reqs (ctx, initDedup ctx.state.align)
    (fun hc => absurd hc (by simp [initDedup])) h
  have hsec := dedupLoop_secondary reqs (ctx, initDedup ctx.state.align)
    ctx.state.align.secondary (fun _ => rfl) hinv.2
  simp only [dedup_aligns, h]
  exact ⟨rfl, hsec⟩

/-- C6 witness: instantiation at a concrete single-bare-center input. -/
theorem dedup_single_center_witness :
    (dedup_aligns ⟨⟨⟨GenAlign.Start, GenAlign.End⟩, ltrSys⟩, []⟩
        [(none, ⟨SpecAlign.Center, 0⟩)]).1.primary = GenAlign.Center ∧
    (dedup_aligns ⟨⟨⟨GenAlign.Start, GenAlign.End⟩, ltrSys⟩, []⟩
        [(none, ⟨SpecAlign.Center, 0⟩)]).1.secondary
      = (⟨⟨⟨GenAlign.Start, GenAlign.End⟩, ltrSys⟩,
          []⟩ : LayoutContext).state.align.secondary :=
  (dedup_single_center ⟨⟨⟨GenAlign.Start, GenAlign.End⟩, ltrSys⟩, []⟩ 0).2
    [(none, ⟨SpecAlign.Center, 0⟩)] (by decide)

/-- C3: two bare center requests collapse to Center on both axes, whatever
the previous alignment was and whatever requests follow. -/
theorem dedup_two_centers (ctx : LayoutContext) (s1 s2 : Span)
    (rest : List (Option SpecAxis × Spanned SpecAlign)) :
    (dedup_aligns ctx
        ((none, ⟨SpecAlign.Center, s1⟩) :: (none, ⟨SpecAlign.Center, s2⟩)
          :: rest)).1
      = ⟨GenAlign.Center, GenAlign.Center⟩ := by
  have h2 : dedupStep (dedupStep (ctx, initDedup ctx.state.align)
        ((none : Option SpecAxis), ⟨SpecAlign.Center, s1⟩))
        ((none : Option SpecAxis), ⟨SpecAlign.Center, s2⟩)
      = (ctx, ⟨⟨GenAlign.Center, GenAlign.Center⟩, ⟨true, true⟩, false⟩) :=
    rfl
  simp only [dedup_aligns, dedupLoop, List.foldl_cons] at h2 ⊢
  rw [h2]
  have h3 := dedupLoop_saturated rest ctx ⟨GenAlign.Center, GenAlign.Center⟩
  simp only [dedupLoop] at h3
  rw [h3]
  rfl

/-- C1: one bare center plus one explicit (non-mismatching) axis-carrying
request, in either order, sets the explicit request's generic axis to the
request's mapped alignment and the other generic axis to Center. -/
theorem dedup_center_plus_explicit (st : LayoutState) (f : List Diag)
    (ax : SpecAxis) (v : SpecAlign) (s1 s2 : Span)
    (hv : SpecAlign.axis v = none ∨ SpecAlign.axis v = some ax) :
    ((dedup_aligns ⟨st, f⟩
        [(none, ⟨SpecAlign.Center, s1⟩), (some ax, ⟨v, s2⟩)]).1.get
          (st.sys.axisToGen ax) = st.sys.alignToGen v ∧
     (dedup_aligns ⟨st, f⟩
        [(none, ⟨SpecAlign.Center, s1⟩), (some ax, ⟨v, s2⟩)]).1.get
          (st.sys.axisToGen ax).other = GenAlign.Center) ∧
    ((dedup_aligns ⟨st, f⟩
        [(some ax, ⟨v, s2⟩), (none, ⟨SpecAlign.Center, s1⟩)]).1.get
          (st.sys.axisToGen ax) = st.sys.alignToGen v ∧
     (dedup_aligns ⟨st, f⟩
        [(some ax, ⟨v, s2⟩), (none, ⟨SpecAlign.Center, s1⟩)]).1.get
          (st.sys.axisToGen ax).other = GenAlign.Center) := by
  cases hax : st.sys.axisToGen ax <;>
    rcases hv with hv | hv <;>
    simp [dedup_aligns, dedupLoop, dedupStep, initDedup, hv, hax,
      Gen2.get, Gen2.set, GenAxis.other]

/-- C1 witness: bare center plus `vertical: top` under the example writing
system, in both orders. -/
theorem dedup_center_plus_explicit_witness :
    ((dedup_aligns ⟨⟨⟨GenAlign.Start, GenAlign.End⟩, ltrSys⟩, []⟩
        [(none, ⟨SpecAlign.Center, 0⟩),
         (some SpecAxis.Vertical, ⟨SpecAlign.Top, 1⟩)]).1.get
          (ltrSys.axisToGen SpecAxis.Vertical) = ltrSys.alignToGen SpecAlign.Top ∧
     (dedup_aligns ⟨⟨⟨GenAlign.Start, GenAlign.End⟩, ltrSys⟩, []⟩
        [(none, ⟨SpecAlign.Center, 0⟩),
         (some SpecAxis.Vertical, ⟨SpecAlign.Top, 1⟩)]).1.get
          (ltrSys.axisToGen SpecAxis.Vertical).other = GenAlign.Center) ∧
    ((dedup_aligns ⟨⟨⟨GenAlign.Start, GenAlign.End⟩, ltrSys⟩, []⟩
        [(some SpecAxis.Vertical, ⟨SpecAlign.Top, 1⟩),
         (none, ⟨SpecAlign.Center, 0⟩)]).1.get
          (ltrSys.axisToGen SpecAxis.Vertical) = ltrSys.alignToGen SpecAlign.Top ∧
     (dedup_aligns ⟨⟨⟨GenAlign.Start, GenAlign.End⟩, ltrSys⟩, []⟩
        [(some SpecAxis.Vertical, ⟨SpecAlign.Top, 1⟩),
         (none, ⟨SpecAlign.Center, 0⟩)]).1.get
          (ltrSys.axisToGen SpecAxis.Vertical).other = GenAlign.Center) :=
  dedup_center_plus_explicit ⟨⟨GenAlign.Start, GenAlign.End⟩, ltrSys⟩ []
    SpecAxis.Vertical SpecAlign.Top 0 1 (Or.inr rfl)

/-- C4: two explicit (non-mismatching) requests targeting the same generic
axis raise exactly one duplicate-axis diagnostic; the axis keeps the first
request's mapped value and the second request changes nothing. -/
theorem dedup_duplicate_axis (st : LayoutState) (f : List Diag)
    (ax1 ax2 : SpecAxis) (v1 v2 : SpecAlign) (s1 s2 : Span)
    (h1 : SpecAlign.axis v1 = none ∨ SpecAlign.axis v1 = some ax1)
    (h2 : SpecAlign.axis v2 = none ∨ SpecAlign.axis v2 = some ax2)
    (hax : st.sys.axisToGen ax2 = st.sys.axisToGen ax1) :
    dedup_aligns ⟨st, f⟩ [(some ax1, ⟨v1, s1⟩), (some ax2, ⟨v2, s2⟩)]
      = (st.align.set (st.sys.axisToGen ax1) (st.sys.alignToGen v1),
         ⟨st, f ++ [Diag.duplicateForAxis s2 ax2]⟩) := by
  cases hg : st.sys.axisToGen ax1 <;>
    rcases h1 with h1 | h1 <;>
    rcases h2 with h2 | h2 <;>
    simp [dedup_aligns, dedupLoop, dedupStep, initDedup, h1, h2, hax, hg,
      Gen2.get, Gen2.set, LayoutContext.diag]

/-- C4 witness: positional `left` followed by keyword `horizontal: right`
under the example writing system. -/
theorem dedup_duplicate_axis_witness :
    dedup_aligns ⟨⟨⟨GenAlign.End, GenAlign.End⟩, ltrSys⟩, []⟩
        [(some SpecAxis.Horizontal, ⟨SpecAlign.Left, 0⟩),
         (some SpecAxis.Horizontal, ⟨SpecAlign.Right, 1⟩)]
      = ((⟨GenAlign.End, GenAlign.End⟩ : LayoutAlign).set
            (ltrSys.axisToGen SpecAxis.Horizontal)
            (ltrSys.alignToGen SpecAlign.Left),
         ⟨⟨⟨GenAlign.End, GenAlign.End⟩, ltrSys⟩,
          [] ++ [Diag.duplicateForAxis 1 SpecAxis.Horizontal]⟩) :=
  dedup_duplicate_axis ⟨⟨GenAlign.End, GenAlign.End⟩, ltrSys⟩ []
    SpecAxis.Horizontal SpecAxis.Horizontal SpecAlign.Left SpecAlign.Right
    0 1 (Or.inr rfl) (Or.inr rfl) rfl

/-- C5: a directional value explicitly paired with the wrong axis raises an
axis-mismatch diagnostic and is dropped without mutating the resolver state;
in particular a one-request sequence of that shape leaves the whole alignment
at its previous value. -/
theorem dedup_axis_mismatch (ax ax2 : SpecAxis) (v : SpecAlign) (sp : Span)
    (hv : SpecAlign.axis v = some ax2) (hne : ax2 ≠ ax) :
    (∀ ctx : LayoutContext,
      dedup_aligns ctx [(some ax, ⟨v, sp⟩)]
        = (ctx.state.align, ctx.diag (Diag.invalidForAxis sp v ax))) ∧
    (∀ (ctx : LayoutContext) (s : DedupState),
      s.hadCenter = false ∨
        (s.had.primary = false ∧ s.had.secondary = false) →
      dedupStep (ctx, s) (some ax, ⟨v, sp⟩)
        = (ctx.diag (Diag.invalidForAxis sp v ax), s)) := by
  constructor
  · intro ctx
    simp [dedup_aligns, dedupLoop, dedupStep, initDedup, hv, hne]
  · rintro ctx s (hs | ⟨hs1, hs2⟩)
    · simp [dedupStep, hv, hne, hs]
    · simp [dedupStep, hv, hne, hs1, hs2]

/-- C5 witness: keyword `vertical: left` on a fresh resolver state, at the
sequence level and at the step level. -/
theorem dedup_axis_mismatch_witness :
    dedup_aligns ⟨⟨⟨GenAlign.Start, GenAlign.End⟩, ltrSys⟩, []⟩
        [(some SpecAxis.Vertical, ⟨SpecAlign.Left, 3⟩)]
      = (⟨GenAlign.Start, GenAlign.End⟩,
         LayoutContext.diag ⟨⟨⟨GenAlign.Start, GenAlign.End⟩, ltrSys⟩, []⟩
           (Diag.invalidForAxis 3 SpecAlign.Left SpecAxis.Vertical)) ∧
    dedupStep (⟨⟨⟨GenAlign.Start, GenAlign.End⟩, ltrSys⟩, []⟩,
        initDedup ⟨GenAlign.Start, GenAlign.End⟩)
        (some SpecAxis.Vertical, ⟨SpecAlign.Left, 3⟩)
      = (LayoutContext.diag ⟨⟨⟨GenAlign.Start, GenAlign.End⟩, ltrSys⟩, []⟩
           (Diag.invalidForAxis 3 SpecAlign.Left SpecAxis.Vertical),
         initDedup ⟨GenAlign.Start, GenAlign.End⟩) :=
  ⟨(dedup_axis_mismatch SpecAxis.Vertical SpecAxis.Horizontal SpecAlign.Left 3
      rfl (by decide)).1
    ⟨⟨⟨GenAlign.Start, GenAlign.End⟩, ltrSys⟩, []⟩,
   (dedup_axis_mismatch SpecAxis.Vertical SpecAxis.Horizontal SpecAlign.Left 3
      rfl (by decide)).2
    ⟨⟨⟨GenAlign.Start, GenAlign.End⟩, ltrSys⟩, []⟩
    (initDedup ⟨GenAlign.Start, GenAlign.End⟩) (Or.inl rfl)⟩

/-- C9: for every argument set the evaluator can pass to the resolver, the
over-specified branch — a bare center with both axes already confirmed — is
unreachable, so `align` never raises the bare `duplicate alignment`
diagnostic; and at every point of any resolver loop a pending bare center
implies that neither generic axis is confirmed. -/
theorem align_over_specified_unreachable (args : Args) (st : LayoutState) :
    noDup (align args ⟨st, []⟩).2.feedback = true ∧
    (∀ (reqs : List (Option SpecAxis × Spanned SpecAlign))
        (ctx : LayoutContext),
      (dedupLoop (ctx, initDedup ctx.state.align) reqs).2.hadCenter = true →
        (dedupLoop (ctx, initDedup ctx.state.align) reqs).2.had.primary
            = false ∧
        (dedupLoop (ctx, initDedup ctx.state.align) reqs).2.had.secondary
            = false) := by
  constructor
  · have hkw : ∀ r ∈ ((args.horizontal.toList.map fun a =>
          ((some SpecAxis.Horizontal : Option SpecAxis), a))
        ++ (args.vertical.toList.map fun a =>
          ((some SpecAxis.Vertical : Option SpecAxis), a))),
        r.1 ≠ (none : Option SpecAxis) := by
      cases args.horizontal <;> cases args.vertical <;> simp
    show noDup
      (dedupLoop (⟨st, []⟩, initDedup st.align) (alignIter args)).1.feedback
        = true
    rw [show alignIter args
        = ((args.first.toList ++ args.second.toList).map fun a =>
            (SpecAlign.axis a.v, a))
          ++ ((args.horizontal.toList.map fun a =>
              ((some SpecAxis.Horizontal : Option SpecAxis), a))
            ++ (args.vertical.toList.map fun a =>
              ((some SpecAxis.Vertical : Option SpecAxis), a)))
      from by simp [alignIter]]
    rw [dedupLoop_append]
    refine dedupLoop_noDup _ _ hkw ?_
    cases hfi : args.first <;> cases hse : args.second
    · exact rfl
    · exact dedupStep_noDup _ _ rfl fun _ => by simp [initDedup]
    · exact dedupStep_noDup _ _ rfl fun _ => by simp [initDedup]
    · exact dedupStep_noDup _ _
        (dedupStep_noDup _ _ rfl fun _ => by simp [initDedup])
        fun _ => dedupStep_notBoth _ _ _ rfl rfl rfl
  · intro reqs ctx
    exact dedupLoop_inv reqs (ctx, initDedup ctx.state.align)
      fun hc => absurd hc (by simp [initDedup])

/-- C9 witness: instantiation of the pending-center invariant at a concrete
one-request loop. -/
theorem align_over_specified_unreachable_witness :
    (dedupLoop (⟨⟨⟨GenAlign.Start, GenAlign.End⟩, ltrSys⟩, []⟩,
          initDedup (⟨⟨⟨GenAlign.Start, GenAlign.End⟩, ltrSys⟩,
            []⟩ : LayoutContext).state.align)
        [(none, ⟨SpecAlign.Center, 0⟩)]).2.had.primary = false ∧
    (dedupLoop (⟨⟨⟨GenAlign.Start, GenAlign.End⟩, ltrSys⟩, []⟩,
          initDedup (⟨⟨⟨GenAlign.Start, GenAlign.End⟩, ltrSys⟩,
            []⟩ : LayoutContext).state.align)
        [(none, ⟨SpecAlign.Center, 0⟩)]).2.had.secondary = false :=
  (align_over_specified_unreachable ⟨none, none, none, none, none⟩
      ⟨⟨GenAlign.Start, GenAlign.End⟩, ltrSys⟩).2
    [(none, ⟨SpecAlign.Center, 0⟩)]
    ⟨⟨⟨GenAlign.Start, GenAlign.End⟩, ltrSys⟩, []⟩ (by decide)

/-- C10: in the request sequence built by `align`, every request whose axis
component is `none` carries the value Center, so the debug assertion in
`dedup_aligns` never fails. -/
theorem alignIter_bare_is_center (args : Args) :
    ((alignIter args).all fun r =>
      match r.1 with
      | none => decide (r.2.v = SpecAlign.Center)
      | some _ => true) = true := by
  have hpos : ∀ a : Spanned SpecAlign,
      (match (SpecAlign.axis a.v : Option SpecAxis) with
       | none => decide (a.v = SpecAlign.Center)
       | some _ => true) = true := by
    rintro ⟨v, sp⟩
    cases v <;> rfl
  cases args.first <;> cases args.second <;>
    cases args.horizontal <;> cases args.vertical <;>
    simp [alignIter, hpos]

end Typst
